import Mathlib

/-!
Verification of the ModelRegistry metrics evaluation pipeline.

The definitions below are a shallow embedding of the Python sources:
* `src/metrics/data_fetcher/github.py` — the paginated GraphQL pull-request
  review-statistics fetcher (`_fetch_prs_with_graphql`, `get_pr_review_stats`,
  `get_github_repo_data`),
* `src/metrics/impl/reviewedness.py` — the reviewedness metric,
* `src/metrics/data_fetcher/aggregator.py` — the comprehensive-data aggregator
  and its neutral-default fallback,
* `src/cli/main.py` — NDJSON record validation and the serialization boundary.

Python integers are modelled as `Int`, Python floats as `ℚ` (the code only
performs exact divisions and comparisons on them), absent dictionary keys as
`Option.none`, and the HTTP transport as the sequence of (already JSON-decoded)
responses the code would observe, one entry per issued request.
-/

/-- Safety ceiling on processed pull requests (`max_prs = 6000` in
`_fetch_prs_with_graphql`). -/
def maxPrs : Nat := 6000

/-- One pull-request node of a GraphQL result page.  Each sub-field is read
with `pr.get(..., 0)` / `pr.get(..., {}).get("totalCount", 0)` in the source,
so an absent sub-field (`Option.none`) defaults to `0`. -/
structure PRNode where
  additions : Option Int
  commitsTotal : Option Int
  reviewsTotal : Option Int
  deriving DecidableEq, Repr

/-- The accumulator dictionary `stats` of `_fetch_prs_with_graphql`. -/
structure PRStats where
  total_prs : Int
  reviewed_prs : Int
  pr_commits : Int
  lines_from_reviewed_prs : Int
  total_lines_added : Int
  deriving DecidableEq, Repr

/-- The initial all-zero accumulator of `_fetch_prs_with_graphql`. -/
def initStats : PRStats :=
  { total_prs := 0, reviewed_prs := 0, pr_commits := 0
    lines_from_reviewed_prs := 0, total_lines_added := 0 }

/-- One observed GraphQL page response, as the code distinguishes them:
transport failure (`not response or not response.ok`), an error envelope
(`"errors" in data`), a null repository, a malformed body (`KeyError` /
`TypeError` while reaching `pullRequests`), or a page carrying `totalCount`
(absent meaning a `KeyError` on `pr_data["totalCount"]`), the node list, and
`pageInfo` (absent meaning a `KeyError` on `pageInfo` / `hasNextPage` /
`endCursor`; present carrying `hasNextPage` and `endCursor`). -/
inductive PageResp where
  | fail
  | errors
  | noRepo
  | badShape
  | page (totalCount : Option Int) (nodes : List PRNode)
      (pageInfo : Option (Bool × Option String))
  deriving DecidableEq, Repr

/-- Responses on which the code `break`s before touching the accumulator. -/
def PageResp.isError : PageResp → Bool
  | .fail => true
  | .errors => true
  | .noRepo => true
  | .badShape => true
  | .page _ _ _ => false

/-- The body of the `for pr in pr_data["nodes"]` loop for a single node. -/
def processNode (s : PRStats) (pr : PRNode) : PRStats :=
  let additions := pr.additions.getD 0
  let commits := pr.commitsTotal.getD 0
  let review_count := pr.reviewsTotal.getD 0
  let s1 : PRStats :=
    { s with pr_commits := s.pr_commits + commits
             total_lines_added := s.total_lines_added + additions }
  if 0 < review_count then
    { s1 with reviewed_prs := s1.reviewed_prs + 1
              lines_from_reviewed_prs := s1.lines_from_reviewed_prs + additions }
  else s1

/-- The full `for pr in pr_data["nodes"]` loop: threads the accumulator and
the `prs_processed` counter through every node of a page. -/
def processNodes : PRStats → Nat → List PRNode → PRStats × Nat
  | s, p, [] => (s, p)
  | s, p, pr :: rest => processNodes (processNode s pr) (p + 1) rest

/-- Result of one loop iteration body on a response: either the loop `break`s
(`stop`) or continues with the page's `hasNextPage` flag (`cont`). -/
inductive StepRes where
  | stop (s : PRStats) (p : Nat)
  | cont (s : PRStats) (p : Nat) (hasNext : Bool)
  deriving DecidableEq, Repr

/-- Processing of one response inside the `while` loop of
`_fetch_prs_with_graphql`: error responses `break`; on a page, `totalCount`
is (re-)read only while the recorded `total_prs` is still `0` (a missing
`totalCount` then raises `KeyError` and `break`s), every node is processed,
and a missing `pageInfo` `break`s after the nodes were counted. -/
def processResp (s : PRStats) (p : Nat) : PageResp → StepRes
  | .fail => .stop s p
  | .errors => .stop s p
  | .noRepo => .stop s p
  | .badShape => .stop s p
  | .page tc nodes pinfo =>
    match (if s.total_prs = 0
           then tc.map (fun v => { s with total_prs := v })
           else some s) with
    | Option.none => .stop s p
    | some s1 =>
      match pinfo with
      | Option.none => .stop (processNodes s1 p nodes).1 (processNodes s1 p nodes).2
      | some (hnp, _cursor) =>
        .cont (processNodes s1 p nodes).1 (processNodes s1 p nodes).2 hnp

/-- Observable outcome of the pagination loop: final accumulator, number of
processed pull requests (`prs_processed`) and number of issued page
requests. -/
structure FetchOut where
  stats : PRStats
  processed : Nat
  requests : Nat
  deriving DecidableEq, Repr

/-- The `while has_next_page and prs_processed < max_prs` loop of
`_fetch_prs_with_graphql`, run against the finite sequence of responses the
transport delivers (an exhausted sequence is a request with no response,
which `break`s). -/
def fetchLoop : List PageResp → PRStats → Nat → Nat → Bool → FetchOut
  | _, s, p, r, false => { stats := s, processed := p, requests := r }
  | responses, s, p, r, true =>
    if p < maxPrs then
      match responses with
      | [] => { stats := s, processed := p, requests := r + 1 }
      | resp :: rest =>
        match processResp s p resp with
        | .stop s1 p1 => { stats := s1, processed := p1, requests := r + 1 }
        | .cont s1 p1 hnp => fetchLoop rest s1 p1 (r + 1) hnp
    else { stats := s, processed := p, requests := r }

/-- `_fetch_prs_with_graphql`: the loop started from the all-zero accumulator,
cursor `None`, `has_next_page = True`, `prs_processed = 0`. -/
def fetchPRsWithGraphql (responses : List PageResp) : FetchOut :=
  fetchLoop responses initStats 0 0 true

/-- The six-field result dictionary of `get_pr_review_stats`. -/
structure FullPRStats where
  total_prs : Int
  reviewed_prs : Int
  total_commits : Int
  pr_commits : Int
  lines_from_reviewed_prs : Int
  total_lines_added : Int
  deriving DecidableEq, Repr

/-- `get_pr_review_stats`: `total_commits` is the page number parsed from the
commit listing's `Link: ... rel="last"` header (`Option.none` when there is no
response, no `Link` header, no `last` relation, or no regex match — the field
then stays `0`); the remaining five fields come from the GraphQL loop. -/
def get_pr_review_stats (commitsLastPage : Option Nat)
    (responses : List PageResp) : FullPRStats :=
  let g := (fetchPRsWithGraphql responses).stats
  { total_prs := g.total_prs
    reviewed_prs := g.reviewed_prs
    total_commits := (commitsLastPage.getD 0 : Nat)
    pr_commits := g.pr_commits
    lines_from_reviewed_prs := g.lines_from_reviewed_prs
    total_lines_added := g.total_lines_added }

/-! Specification-side summation functions, written from the spec's words
("accumulate `total_lines_added += additions` for every item; if the review
count for an item is > 0, also accumulate into `reviewed_prs` and
`lines_from_reviewed_prs`"), to be compared with the loop above. -/

/-- An item counts as reviewed when its review count is positive. -/
def isReviewed (n : PRNode) : Bool := decide (0 < n.reviewsTotal.getD 0)

/-- Sum of the `additions` field over a list of items (absent = 0). -/
def sumAdditions (ns : List PRNode) : Int :=
  (ns.map (fun n => n.additions.getD 0)).sum

/-- Sum of the commit counts over a list of items (absent = 0). -/
def sumCommits (ns : List PRNode) : Int :=
  (ns.map (fun n => n.commitsTotal.getD 0)).sum

/-- Number of items whose review count is positive. -/
def countReviewed (ns : List PRNode) : Nat := (ns.filter isReviewed).length

/-- Sum of `additions` over exactly the reviewed items. -/
def sumReviewedAdditions (ns : List PRNode) : Int :=
  sumAdditions (ns.filter isReviewed)

/-- Accumulator carried by a step outcome. -/
def StepRes.stats : StepRes → PRStats
  | .stop s _ => s
  | .cont s _ _ => s

/-- Processed-item counter carried by a step outcome. -/
def StepRes.procCount : StepRes → Nat
  | .stop _ p => p
  | .cont _ p _ => p

/-- Number of items a response carries. -/
def PageResp.len : PageResp → Nat
  | .page _ nodes _ => nodes.length
  | _ => 0

/-- All six counters of the accumulator are non-negative. -/
def PRStats.Nonneg (s : PRStats) : Prop :=
  0 ≤ s.total_prs ∧ 0 ≤ s.reviewed_prs ∧ 0 ≤ s.pr_commits ∧
  0 ≤ s.lines_from_reviewed_prs ∧ 0 ≤ s.total_lines_added

instance (s : PRStats) : Decidable s.Nonneg := by
  unfold PRStats.Nonneg
  infer_instance

/-- All six fields of a `get_pr_review_stats` result are non-negative. -/
def FullPRStats.Nonneg (s : FullPRStats) : Prop :=
  0 ≤ s.total_prs ∧ 0 ≤ s.reviewed_prs ∧ 0 ≤ s.total_commits ∧
  0 ≤ s.pr_commits ∧ 0 ≤ s.lines_from_reviewed_prs ∧ 0 ≤ s.total_lines_added

instance (s : FullPRStats) : Decidable s.Nonneg := by
  unfold FullPRStats.Nonneg
  infer_instance

/-- A response whose numeric payload is non-negative, as the GitHub API
delivers counters. -/
def PageResp.Wellformed : PageResp → Prop
  | .page tc nodes _ =>
      0 ≤ tc.getD 0 ∧ ∀ n ∈ nodes, 0 ≤ n.additions.getD 0 ∧ 0 ≤ n.commitsTotal.getD 0
  | _ => True

instance (resp : PageResp) : Decidable resp.Wellformed := by
  unfold PageResp.Wellformed
  cases resp <;> infer_instance

/-- A well-formed finite page sequence as the GraphQL endpoint would deliver
it: every page carries its reported `totalCount` and its items, every page
but the last reports `hasNextPage = true`, the last reports `false`. -/
def goodPages : List (Int × List PRNode) → List PageResp
  | [] => []
  | [(tc, ns)] => [PageResp.page (some tc) ns (some (false, Option.none))]
  | (tc, ns) :: rest => PageResp.page (some tc) ns (some (true, Option.none)) :: goodPages rest

/-- Concatenation of the item lists of a page sequence. -/
def allNodes : List (Int × List PRNode) → List PRNode
  | [] => []
  | pg :: rest => pg.2 ++ allNodes rest

/-- A pathological page response: zero items but `hasNextPage = true`. -/
def emptyPageResp : PageResp :=
  PageResp.page (some 1) [] (some (true, Option.none))

/-- A reviewed node: 150 lines added, 3 commits, 1 review. -/
def prNodeRev : PRNode :=
  { additions := some 150, commitsTotal := some 3, reviewsTotal := some 1 }

/-- An unreviewed node: 200 lines added, 5 commits, 0 reviews. -/
def prNodeUnrev : PRNode :=
  { additions := some 200, commitsTotal := some 5, reviewsTotal := some 0 }

/-- A second reviewed node: 100 lines added, 2 commits, 1 review. -/
def prNodeRev2 : PRNode :=
  { additions := some 100, commitsTotal := some 2, reviewsTotal := some 1 }

/-- A node with all three sub-fields absent. -/
def prNodeMissing : PRNode :=
  { additions := Option.none, commitsTotal := Option.none, reviewsTotal := Option.none }

/-- The spec's mocked two-page scenario: page 1 reports a total of 3 and two
items with `hasNextPage = true`; page 2 reports a (deliberately different)
total of 99 and one item with `hasNextPage = false`. -/
def mockPages : List (Int × List PRNode) :=
  [(3, [prNodeRev, prNodeUnrev]), (99, [prNodeRev2])]

/-! Reviewedness metric (`src/metrics/impl/reviewedness.py`). -/

/-- The `pr_review_stats` sub-dictionary as the metric reads it: each counter
is fetched with `.get(..., 0)`, so an absent key defaults to `0`. -/
structure PRReviewCtx where
  total_lines_added : Option Int
  lines_from_reviewed_prs : Option Int
  total_prs : Option Int
  reviewed_prs : Option Int
  deriving DecidableEq, Repr

/-- The `github` entry of the evaluation context as the metric reads it
(`github_data.get("pr_review_stats", {})`). -/
structure GithubCtx where
  pr_review_stats : Option PRReviewCtx
  deriving DecidableEq, Repr

/-- The slice of the evaluation context the reviewedness metric reads:
`context.get("github", {})`, where `Option.none` stands for an absent (or
empty, hence falsy) `github` entry. -/
structure ReviewCtx where
  github : Option GithubCtx
  deriving DecidableEq, Repr

/-- The `details` dictionary of the metric result: either the no-repository
shape or the full statistics shape. -/
inductive RDetails where
  | noRepo (reason : String)
  | stats (total_prs_analyzed : Int) (reviewed_prs : Int) (total_lines_added : Int)
      (lines_from_reviewed_prs : Int) (review_rate : String) (note : String)
  deriving DecidableEq, Repr

/-- A metric result (`MetricResult` of `src/metrics/types.py`); the wall-clock
`seconds` field is timing only and is not modelled. -/
structure MetricResult where
  id : String
  value : ℚ
  binary : Nat
  details : RDetails
  deriving DecidableEq, Repr

/-- Reading one counter out of the optional `pr_review_stats` dictionary with
a default of `0` (`pr_stats.get(..., 0)`). -/
def statGet (ps : Option PRReviewCtx) (f : PRReviewCtx → Option Int) : Int :=
  match ps with
  | Option.none => 0
  | some x => (f x).getD 0

/-- `ReviewednessMetric.compute`. -/
def ReviewednessMetric.compute (ctx : ReviewCtx) : MetricResult :=
  match ctx.github with
  | Option.none =>
    { id := "reviewedness", value := -1, binary := 0
      details := RDetails.noRepo "No GitHub repository" }
  | some gh =>
    let ps := gh.pr_review_stats
    let total_lines_added := statGet ps (fun x => x.total_lines_added)
    let lines_from_reviewed_prs := statGet ps (fun x => x.lines_from_reviewed_prs)
    let total_prs := statGet ps (fun x => x.total_prs)
    let reviewed_prs := statGet ps (fun x => x.reviewed_prs)
    let reviewed_fraction : ℚ :=
      if 0 < total_lines_added
      then (lines_from_reviewed_prs : ℚ) / (total_lines_added : ℚ)
      else -1
    let review_rate :=
      if 0 < total_prs
      then toString reviewed_prs ++ "/" ++ toString total_prs
      else "N/A"
    { id := "reviewedness"
      value := reviewed_fraction
      binary := if (1 : ℚ) / 2 ≤ reviewed_fraction then 1 else 0
      details := RDetails.stats total_prs reviewed_prs total_lines_added
        lines_from_reviewed_prs review_rate
        "Based on last 500 merged PRs (recent development)" }

/-- Context with `pr_review_stats = {total_lines_added, lines_from_reviewed_prs,
total_prs, reviewed_prs}` filled in. -/
def mkReviewCtx (tla lfr tp rp : Int) : ReviewCtx :=
  ReviewCtx.mk (some (GithubCtx.mk (some
    (PRReviewCtx.mk (some tla) (some lfr) (some tp) (some rp)))))

/-! External data aggregator (`src/metrics/data_fetcher/aggregator.py`). -/

/-- JSON-like values making up the evaluation-context dictionary. -/
inductive JVal where
  | null
  | bool (b : Bool)
  | int (n : Int)
  | rat (q : ℚ)
  | str (s : String)
  | arr (elems : List JVal)
  | obj (fields : List (String × JVal))

/-- First-match key lookup in an object's field list. -/
def jlookup : List (String × JVal) → String → Option JVal
  | [], _ => Option.none
  | (k, v) :: rest, key => if k = key then some v else jlookup rest key

/-- Key lookup on a `JVal` (objects only). -/
def JVal.getKey : JVal → String → Option JVal
  | .obj fields, k => jlookup fields k
  | _, _ => Option.none

/-- All the given keys are present. -/
def hasKeys (j : JVal) (keys : List String) : Bool :=
  keys.all (fun k => (JVal.getKey j k).isSome)

/-- The named sub-object is present and has all the given keys. -/
def subComplete (j : JVal) (field : String) (keys : List String) : Bool :=
  match JVal.getKey j field with
  | some sub => hasKeys sub keys
  | Option.none => false

/-- Structural completeness of an evaluation context, written from the spec's
words: all documented fields — availability, license, repo_meta, code_quality,
dataset_quality, ramp, size_components, requirements_passed/total,
compatible_licenses, and the per-source latency fields — are present, with the
documented sub-fields of each composite field. -/
def structurallyComplete (j : JVal) : Bool :=
  hasKeys j ["availability", "license", "repo_meta", "code_quality",
    "dataset_quality", "ramp", "size_components", "requirements_passed",
    "requirements_total", "compatible_licenses", "availability_latency",
    "hf_model_latency", "hf_dataset_latency", "github_latency"] &&
  subComplete j "availability" ["has_code", "has_dataset", "has_model", "links_ok"] &&
  subComplete j "ramp" ["downloads_norm", "likes_norm", "recency_norm"] &&
  subComplete j "repo_meta" ["contributors_count", "top_contributor_pct"] &&
  subComplete j "code_quality"
    ["test_coverage_norm", "style_norm", "comment_ratio_norm", "maintainability_norm"] &&
  subComplete j "dataset_quality" ["cleanliness", "documentation", "class_balance"] &&
  subComplete j "size_components" ["raspberry_pi", "jetson_nano", "desktop_pc", "aws_server"]

/-- The hard-coded neutral-default context returned by the `except` branch of
`fetch_comprehensive_metrics_data` (aggregator lines 169–209), transcribed
field by field. -/
def neutralDefaultCtx : JVal := JVal.obj [
  ("availability", JVal.obj [("has_code", JVal.bool false),
    ("has_dataset", JVal.bool false), ("has_model", JVal.bool false),
    ("links_ok", JVal.bool false)]),
  ("license", JVal.str ""),
  ("repo_meta", JVal.obj [("contributors_count", JVal.int 1),
    ("top_contributor_pct", JVal.rat 1)]),
  ("code_quality", JVal.obj [("test_coverage_norm", JVal.rat 0),
    ("style_norm", JVal.rat (1 / 2)), ("comment_ratio_norm", JVal.rat (1 / 2)),
    ("maintainability_norm", JVal.rat (1 / 2))]),
  ("dataset_quality", JVal.obj [("cleanliness", JVal.rat (1 / 2)),
    ("documentation", JVal.rat (3 / 10)), ("class_balance", JVal.rat (1 / 2))]),
  ("ramp", JVal.obj [("likes_norm", JVal.rat (1 / 10)),
    ("downloads_norm", JVal.rat (1 / 10)), ("recency_norm", JVal.rat (1 / 2))]),
  ("size_components", JVal.obj [("raspberry_pi", JVal.rat (1 / 100)),
    ("jetson_nano", JVal.rat (1 / 100)), ("desktop_pc", JVal.rat (1 / 100)),
    ("aws_server", JVal.rat (1 / 100))]),
  ("requirements_passed", JVal.int 0),
  ("requirements_total", JVal.int 1),
  ("compatible_licenses", JVal.arr [JVal.str "mit", JVal.str "apache-2.0",
    JVal.str "bsd-3-clause", JVal.str "bsd", JVal.str "mpl-2.0"]),
  ("availability_latency", JVal.null),
  ("hf_model_latency", JVal.null),
  ("hf_dataset_latency", JVal.null),
  ("github_latency", JVal.null)]

/-- `fetch_comprehensive_metrics_data`, at the granularity the fallback claim
needs: the whole `try` body (whose helper calls live outside these sources) is
abstracted as its outcome — either the assembled context, or an unhandled
exception carrying whatever partial data had been assembled, which the
`except` branch discards in favour of the hard-coded neutral default. -/
def fetch_comprehensive_metrics_data (body : Except JVal JVal) : JVal :=
  match body with
  | .ok d => d
  | .error _discarded => neutralDefaultCtx

/-- The recency refinement of the aggregator (lines 140–151): `days` is the
integer day count since the repository's `updated_at` timestamp, and the
signal is `max(0.1, min(1.0, 1.0 - days / 365.0))`. -/
def recency_norm (days : Int) : ℚ :=
  max (1 / 10) (min 1 (1 - (days : ℚ) / 365))

/-! NDJSON record validation and the serialization boundary
(`src/cli/main.py`, `validate_ndjson` and the emission loop in `main`). -/

/-- Python values an output record can hold: `None`, `int`, `float`
(modelled as `ℚ`), `str`, or a nested dictionary. -/
inductive PyVal where
  | none
  | int (n : Int)
  | float (q : ℚ)
  | str (s : String)
  | dict (fields : List (String × PyVal))

/-- An output record: a dictionary from field names to values. -/
def NDRecord : Type := List (String × PyVal)

/-- First-match key lookup in a record. -/
def rlookup : NDRecord → String → Option PyVal
  | [], _ => Option.none
  | (k, v) :: rest, key => if k = key then some v else rlookup rest key

/-- The `string_fields` set of `validate_ndjson`. -/
def stringFields : List String := ["name", "category"]

/-- The `score_fields` set of `validate_ndjson`. -/
def scoreFields : List String :=
  ["net_score", "ramp_up_time", "bus_factor", "performance_claims", "license",
   "size_score", "dataset_and_code_score", "dataset_quality", "code_quality",
   "reviewedness", "reproducibility", "treescore"]

/-- The `latency_fields` set of `validate_ndjson`. -/
def latencyFields : List String :=
  ["net_score_latency", "ramp_up_time_latency", "bus_factor_latency",
   "performance_claims_latency", "license_latency", "size_score_latency",
   "dataset_and_code_score_latency", "dataset_quality_latency",
   "code_quality_latency", "reviewedness_latency", "reproducibility_latency",
   "treescore_latency"]

/-- Python's `v == -1.0 or v == -1` (numeric cross-type equality). -/
def isNegOneVal : PyVal → Bool
  | .int n => n = -1
  | .float q => q = -1
  | _ => false

/-- The per-value score check: `-1` is allowed, `None` is allowed, otherwise
the value must be a float within `[0, 1]`. -/
def scoreValOk (v : PyVal) : Bool :=
  if isNegOneVal v then true
  else match v with
    | PyVal.none => true
    | PyVal.float q => decide (0 ≤ q) && decide (q ≤ 1)
    | _ => false

/-- The score-field check: a dictionary is checked value by value, anything
else directly. -/
def scoreFieldOk : PyVal → Bool
  | .dict fields => fields.all (fun kv => scoreValOk kv.2)
  | v => scoreValOk v

/-- The string-field check: a string or `None`. -/
def stringFieldOk : PyVal → Bool
  | .str _ => true
  | .none => true
  | _ => false

/-- The latency-field check: `None` or a non-negative integer. -/
def latencyFieldOk : PyVal → Bool
  | .none => true
  | .int n => decide (0 ≤ n)
  | _ => false

/-- `validate_ndjson`: all required fields present, then each field class
checked with its value predicate. -/
def validate_ndjson (r : NDRecord) : Bool :=
  (scoreFields.all (fun f => (rlookup r f).isSome)) &&
  (latencyFields.all (fun f => (rlookup r f).isSome)) &&
  (stringFields.all (fun f => (rlookup r f).isSome)) &&
  (stringFields.all (fun f => ((rlookup r f).map stringFieldOk).getD false)) &&
  (scoreFields.all (fun f => ((rlookup r f).map scoreFieldOk).getD false)) &&
  (latencyFields.all (fun f => ((rlookup r f).map latencyFieldOk).getD false))

/-- The serialization boundary in `main`: a record failing validation is
replaced by `{"name": record.get("name", "unknown"), "error": "Invalid
record"}`, a passing record is emitted unchanged. -/
def emitRecord (r : NDRecord) : NDRecord :=
  if validate_ndjson r then r
  else [("name", (rlookup r "name").getD (PyVal.str "unknown")),
        ("error", PyVal.str "Invalid record")]

/-- A fully populated valid record: both strings set, every score `1.0`,
every latency `0`. -/
def goodRecord : NDRecord :=
  [("name", PyVal.str "model"), ("category", PyVal.str "model")]
    ++ scoreFields.map (fun f => (f, PyVal.float 1))
    ++ latencyFields.map (fun f => (f, PyVal.int 0))

/-- Dictionary update: the new binding shadows any older one. -/
def setField (r : NDRecord) (f : String) (v : PyVal) : NDRecord := (f, v) :: r

/-! Repository connector (`src/metrics/data_fetcher/github.py`,
`get_github_repo_data`). -/

/-- One contributor entry (`c.get("contributions", 0)`). -/
structure ContribEntry where
  contributions : Option Int
  deriving DecidableEq, Repr

/-- The derived `contributors` sub-dictionary. -/
structure ContribInfo where
  contributors_count : Nat
  top_contributor_pct : ℚ
  total_contributions : Int
  deriving DecidableEq, Repr

/-- The decoded repository-metadata response body, reduced to the fields the
code reads; `license_spdx` is the value of
`(rd.get("license") or {}).get("spdx_id") if rd.get("license") else None`. -/
structure RepoJson where
  stargazers_count : Option Int
  forks_count : Option Int
  created_at : Option String
  updated_at : Option String
  license_spdx : Option String
  deriving DecidableEq, Repr

/-- One entry of a git tree listing; `path` is indexed directly
(`it["path"]`, a `KeyError` when absent), `ty` is `it.get("type")`. -/
structure TreeEntry where
  path : Option String
  ty : Option String
  deriving DecidableEq, Repr

/-- The result dictionary of `get_github_repo_data`: its eight keys. -/
structure GithubData where
  contributors : Option ContribInfo
  files : List String
  license : Option String
  stars : Int
  forks : Int
  created_at : Option String
  updated_at : Option String
  pr_review_stats : FullPRStats
  deriving DecidableEq, Repr

/-- The contributor summary: for a non-empty list, count, top share
(`top / total` when the total is non-zero, else `1.0`) and total; an empty
(or missing) list leaves `contributors` untouched. -/
def contribSummary : List ContribEntry → Option ContribInfo
  | [] => Option.none
  | c :: rest =>
    let total : Int := ((c :: rest).map (fun e => e.contributions.getD 0)).sum
    let top : Int := if total ≠ 0 then c.contributions.getD 0 else 0
    some { contributors_count := (c :: rest).length
           top_contributor_pct := if total ≠ 0 then (top : ℚ) / (total : ℚ) else 1
           total_contributions := total }

/-- The file-listing comprehension
`[it["path"] for it in tree if it.get("type") == "blob"]`; `Option.none`
models the `KeyError` raised when a blob entry has no `path` (the whole
comprehension is then abandoned). -/
def filesFromTree : List TreeEntry → Option (List String)
  | [] => some []
  | e :: rest =>
    if e.ty = some "blob" then
      match e.path with
      | Option.none => Option.none
      | some p => (filesFromTree rest).map (fun ps => p :: ps)
    else filesFromTree rest

/-- The `for branch in ("main", "master")` loop: the `main` tree is tried
first, `master` only when `main` gave no usable response; a `KeyError` during
the comprehension is caught by the enclosing handler, leaving `files` as
`[]`. -/
def computeFiles (treeMain treeMaster : Option (List TreeEntry)) : List String :=
  match treeMain with
  | some t => (filesFromTree t).getD []
  | Option.none =>
    match treeMaster with
    | some t => (filesFromTree t).getD []
    | Option.none => []

/-- `get_github_repo_data`.  Modelled from the spec: the helpers
`extract_repo_info` and `safe_request` (module `data_fetcher/utils.py`) are
not among the sources; per §4.1 an input URL that does not parse to an
owner/repo pair yields the empty record, and every HTTP call either yields a
decoded body or nothing.  They are therefore abstracted as inputs: `parse` is
the `extract_repo_info` result, `repoResp`/`contribResp`/`treeMain`/
`treeMaster` are the decoded responses of the respective calls
(`Option.none` = no usable response), `commitsLastPage` and `prResponses`
feed `get_pr_review_stats` as above.  The result is `Option.none` exactly
when the code returns the empty dictionary `{}`. -/
def get_github_repo_data (parse : Option (String × String))
    (repoResp : Option RepoJson) (contribResp : Option (List ContribEntry))
    (commitsLastPage : Option Nat) (prResponses : List PageResp)
    (treeMain treeMaster : Option (List TreeEntry)) : Option GithubData :=
  match parse with
  | Option.none => Option.none
  | some (owner, repo) =>
    if owner = "" ∨ repo = "" then Option.none
    else
      let d0 : GithubData :=
        { contributors := Option.none, files := [], license := Option.none
          stars := 0, forks := 0, created_at := Option.none
          updated_at := Option.none
          pr_review_stats :=
            { total_prs := 0, reviewed_prs := 0, total_commits := 0
              pr_commits := 0, lines_from_reviewed_prs := 0
              total_lines_added := 0 } }
      let d1 : GithubData :=
        match repoResp with
        | Option.none => d0
        | some rd =>
          { d0 with stars := rd.stargazers_count.getD 0
                    forks := rd.forks_count.getD 0
                    created_at := rd.created_at
                    updated_at := rd.updated_at
                    license := rd.license_spdx }
      let d2 : GithubData :=
        match contribResp with
        | Option.none => d1
        | some lst => { d1 with contributors := contribSummary lst }
      let d3 : GithubData :=
        { d2 with pr_review_stats := get_pr_review_stats commitsLastPage prResponses }
      some { d3 with files := computeFiles treeMain treeMaster }

theorem processNode_eq (s : PRStats) (n : PRNode) :
    processNode s n =
      { total_prs := s.total_prs
        reviewed_prs := s.reviewed_prs + (if isReviewed n then 1 else 0)
        pr_commits := s.pr_commits + n.commitsTotal.getD 0
        lines_from_reviewed_prs :=
          s.lines_from_reviewed_prs + (if isReviewed n then n.additions.getD 0 else 0)
        total_lines_added := s.total_lines_added + n.additions.getD 0 } := by
  by_cases h : 0 < n.reviewsTotal.getD 0 <;>
    simp [processNode, isReviewed, h]

theorem processNodes_spec (ns : List PRNode) : ∀ (s : PRStats) (p : Nat),
    processNodes s p ns =
      ({ total_prs := s.total_prs
         reviewed_prs := s.reviewed_prs + (countReviewed ns : Int)
         pr_commits := s.pr_commits + sumCommits ns
         lines_from_reviewed_prs :=
           s.lines_from_reviewed_prs + sumReviewedAdditions ns
         total_lines_added := s.total_lines_added + sumAdditions ns },
       p + ns.length) := by
  induction ns with
  | nil =>
    intro s p
    simp [processNodes, countReviewed, sumCommits, sumReviewedAdditions, sumAdditions]
  | cons n rest ih =>
    intro s p
    have hstep : processNodes s p (n :: rest) =
        processNodes (processNode s n) (p + 1) rest := rfl
    rw [hstep, ih, processNode_eq]
    by_cases h : isReviewed n <;>
      simp [countReviewed, sumCommits, sumReviewedAdditions, sumAdditions,
            List.filter_cons, h, PRStats.mk.injEq, Prod.ext_iff] <;>
      constructor <;> omega

theorem fetchLoop_false (responses : List PageResp) (s : PRStats) (p r : Nat) :
    fetchLoop responses s p r false = { stats := s, processed := p, requests := r } := by
  cases responses <;> rfl

theorem fetchLoop_not_lt (responses : List PageResp) (s : PRStats) (p r : Nat)
    (hp : ¬ p < maxPrs) :
    fetchLoop responses s p r true = { stats := s, processed := p, requests := r } := by
  cases responses <;> simp [fetchLoop, hp]

theorem fetchLoop_nil_true (s : PRStats) (p r : Nat) (hp : p < maxPrs) :
    fetchLoop [] s p r true = { stats := s, processed := p, requests := r + 1 } := by
  simp [fetchLoop, hp]

theorem fetchLoop_cons_true (resp : PageResp) (rest : List PageResp) (s : PRStats)
    (p r : Nat) (hp : p < maxPrs) :
    fetchLoop (resp :: rest) s p r true =
      match processResp s p resp with
      | .stop s1 p1 => { stats := s1, processed := p1, requests := r + 1 }
      | .cont s1 p1 hnp => fetchLoop rest s1 p1 (r + 1) hnp := by
  simp [fetchLoop, hp]

theorem processResp_error (s : PRStats) (p : Nat) (e : PageResp) (he : e.isError = true) :
    processResp s p e = StepRes.stop s p := by
  cases e <;> simp_all [processResp, PageResp.isError]

theorem processNodes_processed (s : PRStats) (p : Nat) (ns : List PRNode) :
    (processNodes s p ns).2 = p + ns.length := by
  rw [processNodes_spec]

theorem processResp_page_some (s : PRStats) (p : Nat) (v : Int) (nodes : List PRNode)
    (hnp : Bool) (cur : Option String) :
    processResp s p (PageResp.page (some v) nodes (some (hnp, cur))) =
      StepRes.cont
        (processNodes (if s.total_prs = 0 then { s with total_prs := v } else s) p nodes).1
        (processNodes (if s.total_prs = 0 then { s with total_prs := v } else s) p nodes).2
        hnp := by
  by_cases hz : s.total_prs = 0 <;> simp [processResp, hz]

theorem processResp_pageInfoNone_stop (s : PRStats) (p : Nat) (tc : Option Int)
    (nodes : List PRNode) :
    ∃ s1 p1, processResp s p (PageResp.page tc nodes Option.none) = StepRes.stop s1 p1 := by
  by_cases hz : s.total_prs = 0
  · cases tc with
    | none => exact ⟨s, p, by simp [processResp, hz]⟩
    | some v =>
      exact ⟨(processNodes { s with total_prs := v } p nodes).1,
        (processNodes { s with total_prs := v } p nodes).2, by simp [processResp, hz]⟩
  · exact ⟨(processNodes s p nodes).1, (processNodes s p nodes).2,
      by simp [processResp, hz]⟩

theorem processResp_cont_shape (s : PRStats) (p : Nat) (resp : PageResp)
    (s1 : PRStats) (p1 : Nat) (hnp : Bool)
    (h : processResp s p resp = StepRes.cont s1 p1 hnp) :
    ∃ tc nodes pinfo, resp = PageResp.page tc nodes pinfo ∧ p1 = p + nodes.length := by
  cases resp with
  | fail => simp [processResp] at h
  | errors => simp [processResp] at h
  | noRepo => simp [processResp] at h
  | badShape => simp [processResp] at h
  | page tc nodes pinfo =>
    refine ⟨tc, nodes, pinfo, rfl, ?_⟩
    by_cases hz : s.total_prs = 0
    · cases tc with
      | none => simp [processResp, hz] at h
      | some v =>
        cases pinfo with
        | none => simp [processResp, hz] at h
        | some pr =>
          obtain ⟨hb, cur⟩ := pr
          rw [processResp_page_some] at h
          cases h
          exact processNodes_processed _ p nodes
    · cases pinfo with
      | none => simp [processResp, hz] at h
      | some pr =>
        obtain ⟨hb, cur⟩ := pr
        simp only [processResp, hz, if_neg hz] at h
        cases h
        exact processNodes_processed _ p nodes

theorem fetchLoop_append_error (e : PageResp) (he : e.isError = true)
    (post : List PageResp) :
    ∀ (pre : List PageResp) (s : PRStats) (p r : Nat) (hb : Bool),
    fetchLoop (pre ++ e :: post) s p r hb = fetchLoop pre s p r hb := by
  intro pre
  induction pre with
  | nil =>
    intro s p r hb
    cases hb
    · rw [fetchLoop_false, fetchLoop_false]
    · by_cases hp : p < maxPrs
      · rw [List.nil_append, fetchLoop_cons_true _ _ _ _ _ hp,
            fetchLoop_nil_true _ _ _ hp, processResp_error _ _ _ he]
      · rw [fetchLoop_not_lt _ _ _ _ hp, fetchLoop_not_lt _ _ _ _ hp]
  | cons c pre ih =>
    intro s p r hb
    cases hb
    · rw [fetchLoop_false, fetchLoop_false]
    · by_cases hp : p < maxPrs
      · rw [List.cons_append, fetchLoop_cons_true _ _ _ _ _ hp,
            fetchLoop_cons_true _ _ _ _ _ hp]
        cases hpr : processResp s p c with
        | stop s1 p1 => rfl
        | cont s1 p1 hnp => exact ih s1 p1 (r + 1) hnp
      · rw [fetchLoop_not_lt _ _ _ _ hp, fetchLoop_not_lt _ _ _ _ hp]

theorem fetchLoop_append_pageInfoNone (tc : Option Int) (nodes : List PRNode)
    (post : List PageResp) :
    ∀ (pre : List PageResp) (s : PRStats) (p r : Nat) (hb : Bool),
    fetchLoop (pre ++ PageResp.page tc nodes Option.none :: post) s p r hb =
      fetchLoop (pre ++ [PageResp.page tc nodes Option.none]) s p r hb := by
  intro pre
  induction pre with
  | nil =>
    intro s p r hb
    cases hb
    · rw [fetchLoop_false, fetchLoop_false]
    · by_cases hp : p < maxPrs
      · obtain ⟨s1, p1, hstop⟩ := processResp_pageInfoNone_stop s p tc nodes
        rw [List.nil_append, List.nil_append, fetchLoop_cons_true _ _ _ _ _ hp,
            fetchLoop_cons_true _ _ _ _ _ hp, hstop]
      · rw [fetchLoop_not_lt _ _ _ _ hp, fetchLoop_not_lt _ _ _ _ hp]
  | cons c pre ih =>
    intro s p r hb
    cases hb
    · rw [fetchLoop_false, fetchLoop_false]
    · by_cases hp : p < maxPrs
      · rw [List.cons_append, List.cons_append, fetchLoop_cons_true _ _ _ _ _ hp,
            fetchLoop_cons_true _ _ _ _ _ hp]
        cases hpr : processResp s p c with
        | stop s1 p1 => rfl
        | cont s1 p1 hnp => exact ih s1 p1 (r + 1) hnp
      · rw [fetchLoop_not_lt _ _ _ _ hp, fetchLoop_not_lt _ _ _ _ hp]

theorem processNode_nonneg (s : PRStats) (n : PRNode) (hs : s.Nonneg)
    (ha : 0 ≤ n.additions.getD 0) (hc : 0 ≤ n.commitsTotal.getD 0) :
    (processNode s n).Nonneg := by
  unfold PRStats.Nonneg at hs ⊢
  obtain ⟨h1, h2, h3, h4, h5⟩ := hs
  rw [processNode_eq]
  by_cases h : isReviewed n <;> simp [h] <;> omega

theorem processNodes_nonneg (ns : List PRNode) : ∀ (s : PRStats) (p : Nat), s.Nonneg →
    (∀ n ∈ ns, 0 ≤ n.additions.getD 0 ∧ 0 ≤ n.commitsTotal.getD 0) →
    (processNodes s p ns).1.Nonneg := by
  induction ns with
  | nil => intro s p hs _; exact hs
  | cons n rest ih =>
    intro s p hs hn
    have h1 := hn n (List.mem_cons_self n rest)
    exact ih (processNode s n) (p + 1)
      (processNode_nonneg s n hs h1.1 h1.2)
      (fun m hm => hn m (List.mem_cons_of_mem _ hm))

theorem processResp_nonneg (s : PRStats) (p : Nat) (resp : PageResp)
    (hw : resp.Wellformed) (hs : s.Nonneg) : (processResp s p resp).stats.Nonneg := by
  cases resp with
  | fail => exact hs
  | errors => exact hs
  | noRepo => exact hs
  | badShape => exact hs
  | page tc nodes pinfo =>
    obtain ⟨htc, hns⟩ := hw
    have key : ∀ s1 : PRStats, s1.Nonneg → ((processNodes s1 p nodes).1).Nonneg :=
      fun s1 h => processNodes_nonneg nodes s1 p h hns
    by_cases hz : s.total_prs = 0
    · cases tc with
      | none => simpa [processResp, hz, StepRes.stats] using hs
      | some v =>
        have hv : (0 : Int) ≤ v := by simpa using htc
        have hs1 : PRStats.Nonneg { s with total_prs := v } := by
          obtain ⟨_, h2, h3, h4, h5⟩ := hs
          exact ⟨hv, h2, h3, h4, h5⟩
        cases pinfo with
        | none => simpa [processResp, hz, StepRes.stats] using key _ hs1
        | some pr =>
          obtain ⟨hb, cur⟩ := pr
          simpa [processResp, hz, StepRes.stats] using key _ hs1
    · cases pinfo with
      | none => simpa [processResp, hz, StepRes.stats] using key _ hs
      | some pr =>
        obtain ⟨hb, cur⟩ := pr
        simpa [processResp, hz, StepRes.stats] using key _ hs

theorem fetchLoop_nonneg (responses : List PageResp) : ∀ (s : PRStats) (p r : Nat) (hb : Bool),
    (∀ resp ∈ responses, resp.Wellformed) → s.Nonneg →
    (fetchLoop responses s p r hb).stats.Nonneg := by
  induction responses with
  | nil =>
    intro s p r hb hw hs
    cases hb
    · rw [fetchLoop_false]; exact hs
    · by_cases hp : p < maxPrs
      · rw [fetchLoop_nil_true _ _ _ hp]; exact hs
      · rw [fetchLoop_not_lt _ _ _ _ hp]; exact hs
  | cons c rest ih =>
    intro s p r hb hw hs
    cases hb
    · rw [fetchLoop_false]; exact hs
    · by_cases hp : p < maxPrs
      · rw [fetchLoop_cons_true _ _ _ _ _ hp]
        have hst := processResp_nonneg s p c (hw c (List.mem_cons_self _ _)) hs
        cases hpr : processResp s p c with
        | stop s1 p1 =>
          rw [hpr] at hst
          simpa [StepRes.stats] using hst
        | cont s1 p1 hnp =>
          rw [hpr] at hst
          simp only []
          exact ih s1 p1 (r + 1) hnp (fun x hx => hw x (List.mem_cons_of_mem _ hx))
            (by simpa [StepRes.stats] using hst)
      · rw [fetchLoop_not_lt _ _ _ _ hp]; exact hs

theorem processResp_procCount (s : PRStats) (p : Nat) (resp : PageResp) :
    (processResp s p resp).procCount ≤ p + resp.len := by
  cases resp with
  | fail => simp [processResp, StepRes.procCount, PageResp.len]
  | errors => simp [processResp, StepRes.procCount, PageResp.len]
  | noRepo => simp [processResp, StepRes.procCount, PageResp.len]
  | badShape => simp [processResp, StepRes.procCount, PageResp.len]
  | page tc nodes pinfo =>
    by_cases hz : s.total_prs = 0
    · cases tc with
      | none => simp [processResp, hz, StepRes.procCount, PageResp.len]
      | some v =>
        cases pinfo with
        | none =>
          simp [processResp, hz, StepRes.procCount, PageResp.len, processNodes_processed]
        | some pr =>
          obtain ⟨hb, cur⟩ := pr
          simp [processResp, hz, StepRes.procCount, PageResp.len, processNodes_processed]
    · cases pinfo with
      | none =>
        simp [processResp, hz, StepRes.procCount, PageResp.len, processNodes_processed]
      | some pr =>
        obtain ⟨hb, cur⟩ := pr
        simp [processResp, hz, StepRes.procCount, PageResp.len, processNodes_processed]

theorem fetchLoop_requests_le (responses : List PageResp) : ∀ (s : PRStats) (p r : Nat) (hb : Bool),
    (∀ resp ∈ responses, resp.isError = true ∨ 1 ≤ resp.len) →
    (fetchLoop responses s p r hb).requests ≤ r + (maxPrs - p) := by
  induction responses with
  | nil =>
    intro s p r hb hne
    cases hb
    · rw [fetchLoop_false]; simp
    · by_cases hp : p < maxPrs
      · rw [fetchLoop_nil_true _ _ _ hp]; simp; omega
      · rw [fetchLoop_not_lt _ _ _ _ hp]; simp
  | cons c rest ih =>
    intro s p r hb hne
    cases hb
    · rw [fetchLoop_false]; simp
    · by_cases hp : p < maxPrs
      · rw [fetchLoop_cons_true _ _ _ _ _ hp]
        cases hpr : processResp s p c with
        | stop s1 p1 => simp; omega
        | cont s1 p1 hnp =>
          simp only []
          obtain ⟨tc, nodes, pinfo, hceq, hp1⟩ :=
            processResp_cont_shape s p c s1 p1 hnp hpr
          subst hceq
          have hlen : 1 ≤ nodes.length := by
            rcases hne _ (List.mem_cons_self _ _) with he | hl
            · simp [PageResp.isError] at he
            · simpa [PageResp.len] using hl
          have hrec := ih s1 p1 (r + 1) hnp
            (fun x hx => hne x (List.mem_cons_of_mem _ hx))
          omega
      · rw [fetchLoop_not_lt _ _ _ _ hp]; simp

theorem fetchLoop_processed_lt (responses : List PageResp) :
    ∀ (s : PRStats) (p r : Nat) (hb : Bool),
    (∀ resp ∈ responses, resp.len ≤ 100) → p < maxPrs + 100 →
    (fetchLoop responses s p r hb).processed < maxPrs + 100 := by
  induction responses with
  | nil =>
    intro s p r hb _ hp100
    cases hb
    · rw [fetchLoop_false]; exact hp100
    · by_cases hp : p < maxPrs
      · rw [fetchLoop_nil_true _ _ _ hp]; exact hp100
      · rw [fetchLoop_not_lt _ _ _ _ hp]; exact hp100
  | cons c rest ih =>
    intro s p r hb hcap hp100
    cases hb
    · rw [fetchLoop_false]; exact hp100
    · by_cases hp : p < maxPrs
      · rw [fetchLoop_cons_true _ _ _ _ _ hp]
        have hclen : c.len ≤ 100 := hcap c (List.mem_cons_self _ _)
        have hpc := processResp_procCount s p c
        cases hpr : processResp s p c with
        | stop s1 p1 =>
          rw [hpr] at hpc
          simp [StepRes.procCount] at hpc
          simp
          omega
        | cont s1 p1 hnp =>
          rw [hpr] at hpc
          simp [StepRes.procCount] at hpc
          simp only []
          exact ih s1 p1 (r + 1) hnp
            (fun x hx => hcap x (List.mem_cons_of_mem _ hx)) (by omega)
      · rw [fetchLoop_not_lt _ _ _ _ hp]; exact hp100

theorem countReviewed_append (a b : List PRNode) :
    countReviewed (a ++ b) = countReviewed a + countReviewed b := by
  simp [countReviewed, List.filter_append]

theorem sumAdditions_append (a b : List PRNode) :
    sumAdditions (a ++ b) = sumAdditions a + sumAdditions b := by
  simp [sumAdditions]

theorem sumCommits_append (a b : List PRNode) :
    sumCommits (a ++ b) = sumCommits a + sumCommits b := by
  simp [sumCommits]

theorem sumReviewedAdditions_append (a b : List PRNode) :
    sumReviewedAdditions (a ++ b) = sumReviewedAdditions a + sumReviewedAdditions b := by
  simp [sumReviewedAdditions, List.filter_append, sumAdditions_append]

theorem fetchLoop_goodPages (rest : List (Int × List PRNode)) :
    ∀ (tc : Int) (ns : List PRNode) (s : PRStats) (p r : Nat),
    (s.total_prs = 0 → tc ≠ 0) →
    (∀ pg ∈ (tc, ns) :: rest, pg.2 ≠ ([] : List PRNode)) →
    p + (((tc, ns) :: rest).map (fun pg => pg.2.length)).sum ≤ maxPrs →
    fetchLoop (goodPages ((tc, ns) :: rest)) s p r true =
      { stats :=
          { total_prs := if s.total_prs = 0 then tc else s.total_prs
            reviewed_prs :=
              s.reviewed_prs + (countReviewed (allNodes ((tc, ns) :: rest)) : Int)
            pr_commits := s.pr_commits + sumCommits (allNodes ((tc, ns) :: rest))
            lines_from_reviewed_prs :=
              s.lines_from_reviewed_prs + sumReviewedAdditions (allNodes ((tc, ns) :: rest))
            total_lines_added :=
              s.total_lines_added + sumAdditions (allNodes ((tc, ns) :: rest)) }
        processed := p + (allNodes ((tc, ns) :: rest)).length
        requests := r + ((tc, ns) :: rest).length } := by
  induction rest with
  | nil =>
    intro tc ns s p r h0 hne hbud
    have hnsne : ns ≠ [] := hne (tc, ns) (List.mem_cons_self _ _)
    have hlen : 1 ≤ ns.length := List.length_pos.mpr hnsne
    have hp : p < maxPrs := by
      simp only [List.map_cons, List.map_nil, List.sum_cons, List.sum_nil] at hbud
      omega
    rw [show goodPages [(tc, ns)] =
          [PageResp.page (some tc) ns (some (false, Option.none))] from rfl]
    rw [fetchLoop_cons_true _ _ _ _ _ hp, processResp_page_some]
    simp only []
    rw [fetchLoop_false, processNodes_spec]
    by_cases hz : s.total_prs = 0 <;>
      simp [hz, allNodes, FetchOut.mk.injEq, PRStats.mk.injEq]
  | cons pg2 rest ih =>
    intro tc ns s p r h0 hne hbud
    obtain ⟨tc2, ns2⟩ := pg2
    have hns2ne : ns2 ≠ [] := hne (tc2, ns2) (by simp)
    have hlen2 : 1 ≤ ns2.length := List.length_pos.mpr hns2ne
    have hp : p < maxPrs := by
      simp only [List.map_cons, List.sum_cons] at hbud
      omega
    rw [show goodPages ((tc, ns) :: (tc2, ns2) :: rest) =
          PageResp.page (some tc) ns (some (true, Option.none)) ::
            goodPages ((tc2, ns2) :: rest) from rfl]
    rw [fetchLoop_cons_true _ _ _ _ _ hp, processResp_page_some]
    simp only []
    rw [processNodes_spec]
    by_cases hz : s.total_prs = 0
    · have htcne : tc ≠ 0 := h0 hz
      rw [if_pos hz]
      rw [ih tc2 ns2 _ (p + ns.length) (r + 1)
        (by intro hcontra; simp at hcontra; exact absurd hcontra htcne)
        (fun pg hpg => hne pg (List.mem_cons_of_mem _ hpg))
        (by simp only [List.map_cons, List.sum_cons] at hbud ⊢; omega)]
      simp only [allNodes, countReviewed_append, sumCommits_append,
        sumReviewedAdditions_append, sumAdditions_append, List.length_append,
        List.length_cons, FetchOut.mk.injEq, PRStats.mk.injEq]
      refine ⟨⟨?_, ?_, ?_, ?_, ?_⟩, ?_, ?_⟩
      all_goals try simp [htcne]
      all_goals omega
    · rw [if_neg hz]
      rw [ih tc2 ns2 _ (p + ns.length) (r + 1)
        (by intro hcontra; simp at hcontra; exact absurd hcontra hz)
        (fun pg hpg => hne pg (List.mem_cons_of_mem _ hpg))
        (by simp only [List.map_cons, List.sum_cons] at hbud ⊢; omega)]
      simp only [allNodes, countReviewed_append, sumCommits_append,
        sumReviewedAdditions_append, sumAdditions_append, List.length_append,
        List.length_cons, FetchOut.mk.injEq, PRStats.mk.injEq]
      refine ⟨⟨?_, ?_, ?_, ?_, ?_⟩, ?_, ?_⟩
      all_goals try simp [hz]
      all_goals omega

theorem fetchLoop_emptyPages : ∀ (k : Nat) (s : PRStats) (r : Nat), s.total_prs ≠ 0 →
    fetchLoop (List.replicate k emptyPageResp) s 0 r true =
      { stats := s, processed := 0, requests := r + k + 1 } := by
  intro k
  induction k with
  | zero =>
    intro s r hs
    rw [List.replicate_zero, fetchLoop_nil_true _ _ _ (by simp [maxPrs])]
  | succ k ih =>
    intro s r hs
    rw [List.replicate_succ]
    rw [show emptyPageResp = PageResp.page (some 1) [] (some (true, Option.none)) from rfl]
    rw [fetchLoop_cons_true _ _ _ _ _ (by simp [maxPrs]), processResp_page_some]
    simp only [if_neg hs, processNodes]
    rw [show PageResp.page (some 1) [] (some (true, Option.none)) = emptyPageResp from rfl]
    rw [ih s (r + 1) hs]
    simp [FetchOut.mk.injEq]
    omega

/-- Claim C1, counterexample: the claim says `total_prs` equals the
`totalCount` reported by the first page and is not re-read from subsequent
pages.  The code re-reads `totalCount` on every page while the recorded value
is still `0`: on a two-page sequence whose first page reports `totalCount = 0`
and whose second reports `7`, the returned `total_prs` is `7`, not the first
page's `0`. -/
theorem c1_total_prs_counterexample :
    (fetchPRsWithGraphql (goodPages [(0, [prNodeRev]), (7, [prNodeRev2])])).stats.total_prs = 7 ∧
    (0 : Int) ≠ 7 := by
  exact ⟨by decide, by decide⟩

/-- Claim C1 (amended): for every consumed sequence of GraphQL result pages
(each page non-empty, all items fitting under the safety ceiling, and the
first page reporting a non-zero `totalCount` — the code re-reads `totalCount`
while the recorded value is still `0`), exactly one request is issued per
page, `total_lines_added` is the sum of `additions` over every item of every
page, `reviewed_prs` counts exactly the items with review count > 0,
`lines_from_reviewed_prs` sums `additions` over exactly those items, and
`total_prs` is the first page's `totalCount`, ignoring the counts reported by
later pages. -/
theorem c1_pagination_sums (tc0 : Int) (ns0 : List PRNode)
    (rest : List (Int × List PRNode)) (htc : tc0 ≠ 0)
    (hne : ∀ pg ∈ (tc0, ns0) :: rest, pg.2 ≠ ([] : List PRNode))
    (hbud : (((tc0, ns0) :: rest).map (fun pg => pg.2.length)).sum ≤ maxPrs) :
    fetchPRsWithGraphql (goodPages ((tc0, ns0) :: rest)) =
      { stats := { total_prs := tc0
                   reviewed_prs := (countReviewed (allNodes ((tc0, ns0) :: rest)) : Int)
                   pr_commits := sumCommits (allNodes ((tc0, ns0) :: rest))
                   lines_from_reviewed_prs := sumReviewedAdditions (allNodes ((tc0, ns0) :: rest))
                   total_lines_added := sumAdditions (allNodes ((tc0, ns0) :: rest)) }
        processed := (allNodes ((tc0, ns0) :: rest)).length
        requests := ((tc0, ns0) :: rest).length } := by
  unfold fetchPRsWithGraphql
  rw [fetchLoop_goodPages rest tc0 ns0 initStats 0 0 (fun _ => htc) hne
      (by simpa using hbud)]
  simp [initStats]

/-- Witness for claim C1 (amended): the spec's mocked two-page scenario
(page 1: 2 items, `hasNextPage = true`; page 2: 1 item, `hasNextPage = false`)
issues exactly 2 page requests, sums span both pages
(`total_lines_added = 150 + 200 + 100`, `reviewed_prs = 2`,
`lines_from_reviewed_prs = 150 + 100`), and `total_prs = 3` comes from page 1
only (page 2 reports 99). -/
theorem c1_pagination_sums_witness :
    (3 : Int) ≠ 0 ∧
    (∀ pg ∈ mockPages, pg.2 ≠ ([] : List PRNode)) ∧
    (mockPages.map (fun pg => pg.2.length)).sum ≤ maxPrs ∧
    fetchPRsWithGraphql (goodPages mockPages) =
      { stats := { total_prs := 3, reviewed_prs := 2, pr_commits := 10
                   lines_from_reviewed_prs := 250, total_lines_added := 450 }
        processed := 3, requests := 2 } := by
  refine ⟨by decide, by decide, by decide, ?_⟩
  have h := c1_pagination_sums 3 [prNodeRev, prNodeUnrev] [(99, [prNodeRev2])]
    (by decide) (by decide) (by decide)
  unfold mockPages
  rw [h]
  decide

/-- Claim C4: when the GraphQL response carries an error envelope, the
transport returns no response or a non-success result, or a required field is
absent (`totalCount`, the body shape, or `pageInfo`), the fetch stops and
returns the statistics accumulated so far — everything after the offending
response is ignored; for well-formed (non-negative) server counters all six
output fields of `get_pr_review_stats` are non-negative integers, and they
are all `0` when no data was obtained. -/
theorem c4_fetch_error_recovery :
    (∀ (commitsLast : Option Nat) (pre : List PageResp) (e : PageResp),
      e.isError = true → ∀ post,
      get_pr_review_stats commitsLast (pre ++ e :: post) =
        get_pr_review_stats commitsLast pre) ∧
    (∀ (commitsLast : Option Nat) (pre : List PageResp) (tc : Option Int)
      (nodes : List PRNode) (post : List PageResp),
      get_pr_review_stats commitsLast (pre ++ PageResp.page tc nodes Option.none :: post) =
        get_pr_review_stats commitsLast (pre ++ [PageResp.page tc nodes Option.none])) ∧
    (∀ (commitsLast : Option Nat) (responses : List PageResp),
      (∀ resp ∈ responses, resp.Wellformed) →
      (get_pr_review_stats commitsLast responses).Nonneg) ∧
    get_pr_review_stats Option.none [] =
      { total_prs := 0, reviewed_prs := 0, total_commits := 0, pr_commits := 0
        lines_from_reviewed_prs := 0, total_lines_added := 0 } := by
  refine ⟨?_, ?_, ?_, by decide⟩
  · intro commitsLast pre e he post
    have hX : fetchPRsWithGraphql (pre ++ e :: post) = fetchPRsWithGraphql pre := by
      unfold fetchPRsWithGraphql
      exact fetchLoop_append_error e he post pre initStats 0 0 true
    simp [get_pr_review_stats, hX]
  · intro commitsLast pre tc nodes post
    have hX : fetchPRsWithGraphql (pre ++ PageResp.page tc nodes Option.none :: post) =
        fetchPRsWithGraphql (pre ++ [PageResp.page tc nodes Option.none]) := by
      unfold fetchPRsWithGraphql
      exact fetchLoop_append_pageInfoNone tc nodes post pre initStats 0 0 true
    simp [get_pr_review_stats, hX]
  · intro commitsLast responses hw
    have hstats := fetchLoop_nonneg responses initStats 0 0 true hw (by decide)
    unfold PRStats.Nonneg at hstats
    obtain ⟨h1, h2, h3, h4, h5⟩ := hstats
    unfold FullPRStats.Nonneg get_pr_review_stats fetchPRsWithGraphql
    refine ⟨h1, h2, ?_, h3, h4, h5⟩
    show (0 : Int) ≤ ((commitsLast.getD 0 : Nat) : Int)
    exact Int.natCast_nonneg _

/-- Witness for claim C4: an error envelope after one good page freezes the
statistics at the values accumulated from that page, every field of the
result of a well-formed run is non-negative, and the membership hypotheses
hold at these concrete inputs. -/
theorem c4_fetch_error_recovery_witness :
    PageResp.errors.isError = true ∧
    get_pr_review_stats (some 100) ([emptyPageResp] ++ PageResp.errors :: [PageResp.fail]) =
      get_pr_review_stats (some 100) [emptyPageResp] ∧
    (∀ resp ∈ [emptyPageResp], resp.Wellformed) ∧
    (get_pr_review_stats (some 100) [emptyPageResp]).Nonneg := by
  refine ⟨rfl, ?_, by decide, ?_⟩
  · exact c4_fetch_error_recovery.1 (some 100) [emptyPageResp] PageResp.errors rfl
      [PageResp.fail]
  · exact c4_fetch_error_recovery.2.2.1 (some 100) [emptyPageResp] (by decide)

/-- Claim C5, counterexample: the claim says the fetch terminates after a
bounded number of page requests for every sequence of server responses, the
bound deriving from the 6000-item safety ceiling.  A server that keeps
answering with zero-item pages flagged `hasNextPage = true` never advances
`prs_processed`, so the ceiling never triggers: on 6001 such responses the
loop issues 6002 page requests (one per response plus the final unanswered
one) while processing 0 items — more requests than the ceiling-derived bound,
and growing with the response sequence. -/
theorem c5_requests_unbounded_counterexample :
    (fetchPRsWithGraphql (emptyPageResp :: List.replicate 6000 emptyPageResp)).requests = 6002 ∧
    (fetchPRsWithGraphql (emptyPageResp :: List.replicate 6000 emptyPageResp)).processed = 0 ∧
    maxPrs < (fetchPRsWithGraphql (emptyPageResp :: List.replicate 6000 emptyPageResp)).requests ∧
    emptyPageResp.isError = false := by
  have hstep : fetchPRsWithGraphql (emptyPageResp :: List.replicate 6000 emptyPageResp) =
      fetchLoop (List.replicate 6000 emptyPageResp)
        { total_prs := 1, reviewed_prs := 0, pr_commits := 0
          lines_from_reviewed_prs := 0, total_lines_added := 0 } 0 1 true := by
    unfold fetchPRsWithGraphql
    rw [fetchLoop_cons_true _ _ _ _ _ (by simp [maxPrs])]
    rw [show processResp initStats 0 emptyPageResp =
        StepRes.cont (PRStats.mk 1 0 0 0 0) 0 true from rfl]
  rw [hstep, fetchLoop_emptyPages 6000 _ 1 (by decide)]
  refine ⟨rfl, rfl, by decide, rfl⟩

/-- Claim C5 (amended): the loop continues only while the server reports
`hasNextPage` and fewer than 6000 items have been processed; provided every
successfully parsed page carries at least one item (as real pages do), at
most 6000 page requests are issued, and with pages of at most 100 items (the
query asks for `first: 100`) the number of processed items stays below the
ceiling plus one page. -/
theorem c5_bounded_pagination (responses : List PageResp)
    (hne : ∀ resp ∈ responses, resp.isError = true ∨ 1 ≤ resp.len)
    (hcap : ∀ resp ∈ responses, resp.len ≤ 100) :
    (fetchPRsWithGraphql responses).requests ≤ maxPrs ∧
    (fetchPRsWithGraphql responses).processed < maxPrs + 100 := by
  constructor
  · have h := fetchLoop_requests_le responses initStats 0 0 true hne
    simpa using h
  · exact fetchLoop_processed_lt responses initStats 0 0 true hcap (by simp [maxPrs])

/-- Witness for claim C5 (amended): on the concrete two-page mock both
hypotheses hold and the run stays within the bounds. -/
theorem c5_bounded_pagination_witness :
    (∀ resp ∈ goodPages mockPages, resp.isError = true ∨ 1 ≤ resp.len) ∧
    (∀ resp ∈ goodPages mockPages, resp.len ≤ 100) ∧
    (fetchPRsWithGraphql (goodPages mockPages)).requests ≤ maxPrs ∧
    (fetchPRsWithGraphql (goodPages mockPages)).processed < maxPrs + 100 := by
  refine ⟨by decide, by decide, ?_, ?_⟩
  · exact (c5_bounded_pagination (goodPages mockPages) (by decide) (by decide)).1
  · exact (c5_bounded_pagination (goodPages mockPages) (by decide) (by decide)).2

/-- Claim C6: an item missing the lines-added, commit-count or review-count
sub-field contributes zero to the corresponding counters — a missing
`additions` adds nothing to `total_lines_added` or `lines_from_reviewed_prs`,
a missing commit count adds nothing to `pr_commits`, a missing review count
leaves the item unreviewed — an item missing all three leaves the accumulator
unchanged, and processing always continues with the remaining items. -/
theorem c6_missing_subfields_zero (s : PRStats) (n : PRNode) :
    (n.additions = Option.none →
      (processNode s n).total_lines_added = s.total_lines_added ∧
      (processNode s n).lines_from_reviewed_prs = s.lines_from_reviewed_prs) ∧
    (n.commitsTotal = Option.none → (processNode s n).pr_commits = s.pr_commits) ∧
    (n.reviewsTotal = Option.none →
      (processNode s n).reviewed_prs = s.reviewed_prs ∧
      (processNode s n).lines_from_reviewed_prs = s.lines_from_reviewed_prs) ∧
    (n.additions = Option.none ∧ n.commitsTotal = Option.none ∧
      n.reviewsTotal = Option.none → processNode s n = s) ∧
    (∀ (p : Nat) (rest : List PRNode),
      processNodes s p (n :: rest) = processNodes (processNode s n) (p + 1) rest) := by
  refine ⟨?_, ?_, ?_, ?_, fun p rest => rfl⟩
  · intro h
    rw [processNode_eq]
    by_cases hr : isReviewed n <;> simp [h, hr]
  · intro h
    rw [processNode_eq]
    simp [h]
  · intro h
    rw [processNode_eq]
    simp [isReviewed, h]
  · intro ⟨h1, h2, h3⟩
    rw [processNode_eq]
    cases s
    simp [isReviewed, h1, h2, h3]

/-- Witness for claim C6: the all-missing node leaves the zero accumulator
untouched field by field. -/
theorem c6_missing_subfields_zero_witness :
    prNodeMissing.additions = Option.none ∧
    (processNode initStats prNodeMissing).total_lines_added = initStats.total_lines_added ∧
    (processNode initStats prNodeMissing).pr_commits = initStats.pr_commits ∧
    (processNode initStats prNodeMissing).reviewed_prs = initStats.reviewed_prs ∧
    processNode initStats prNodeMissing = initStats := by
  refine ⟨rfl, ?_, ?_, ?_, ?_⟩
  · exact ((c6_missing_subfields_zero initStats prNodeMissing).1 rfl).1
  · exact (c6_missing_subfields_zero initStats prNodeMissing).2.1 rfl
  · exact ((c6_missing_subfields_zero initStats prNodeMissing).2.2.1 rfl).1
  · exact (c6_missing_subfields_zero initStats prNodeMissing).2.2.2.1 ⟨rfl, rfl, rfl⟩

/-- Claim C7: the aggregator's recency signal is
`max(0.1, min(1.0, 1 - days / 365))` — a linear falloff over 365 days clamped
to the interval `[0.1, 1.0]` — and for every day count, however large or
negative, the result lies in `[0.1, 1.0]`. -/
theorem c7_recency_clamped : ∀ days : Int,
    recency_norm days = max (1 / 10 : ℚ) (min 1 (1 - (days : ℚ) / 365)) ∧
    (1 / 10 : ℚ) ≤ recency_norm days ∧ recency_norm days ≤ 1 := by
  intro days
  unfold recency_norm
  exact ⟨rfl, le_max_left _ _, max_le (by norm_num) (min_le_left _ _)⟩

theorem compute_binary_eq (ctx : ReviewCtx) :
    (ReviewednessMetric.compute ctx).binary =
      if (1 : ℚ) / 2 ≤ (ReviewednessMetric.compute ctx).value then 1 else 0 := by
  cases hctx : ctx.github with
  | none =>
    simp only [ReviewednessMetric.compute, hctx]
    norm_num
  | some gh =>
    simp only [ReviewednessMetric.compute, hctx]

/-- Claim C2: the reviewedness metric returns
`lines_from_reviewed_prs / total_lines_added` when `total_lines_added > 0`,
`-1` when the context has no `github` entry or `total_lines_added = 0`, and
`binary = 1` exactly when the value is at least `0.5`; on the round-trip
statistics `{total_lines_added: 4200, lines_from_reviewed_prs: 3000,
total_prs: 42, reviewed_prs: 30}` it returns value `3000/4200`, binary `1`
and `details.review_rate = "30/42"`; a fraction of exactly `0.5` gives
binary `1` and `0.4999` gives binary `0`. -/
theorem c2_reviewedness_value_binary (ctx : ReviewCtx) :
    (ctx.github = Option.none →
      (ReviewednessMetric.compute ctx).value = -1 ∧
      (ReviewednessMetric.compute ctx).binary = 0) ∧
    (∀ gh, ctx.github = some gh →
      (0 < statGet gh.pr_review_stats (fun x => x.total_lines_added) →
        (ReviewednessMetric.compute ctx).value =
          (statGet gh.pr_review_stats (fun x => x.lines_from_reviewed_prs) : ℚ) /
          (statGet gh.pr_review_stats (fun x => x.total_lines_added) : ℚ)) ∧
      (statGet gh.pr_review_stats (fun x => x.total_lines_added) = 0 →
        (ReviewednessMetric.compute ctx).value = -1)) ∧
    ((ReviewednessMetric.compute ctx).binary = 1 ↔
      (1 : ℚ) / 2 ≤ (ReviewednessMetric.compute ctx).value) ∧
    ReviewednessMetric.compute (mkReviewCtx 4200 3000 42 30) =
      { id := "reviewedness", value := 3000 / 4200, binary := 1
        details := RDetails.stats 42 30 4200 3000 "30/42"
          "Based on last 500 merged PRs (recent development)" } ∧
    (ReviewednessMetric.compute (mkReviewCtx 10000 5000 10 5)).value = 1 / 2 ∧
    (ReviewednessMetric.compute (mkReviewCtx 10000 5000 10 5)).binary = 1 ∧
    (ReviewednessMetric.compute (mkReviewCtx 10000 4999 10 5)).value = 4999 / 10000 ∧
    (ReviewednessMetric.compute (mkReviewCtx 10000 4999 10 5)).binary = 0 := by
  refine ⟨?_, ?_, ?_,
    by norm_num [ReviewednessMetric.compute, mkReviewCtx, statGet]; rfl,
    by norm_num [ReviewednessMetric.compute, mkReviewCtx, statGet],
    by norm_num [ReviewednessMetric.compute, mkReviewCtx, statGet],
    by norm_num [ReviewednessMetric.compute, mkReviewCtx, statGet],
    by norm_num [ReviewednessMetric.compute, mkReviewCtx, statGet]⟩
  · intro h
    simp [ReviewednessMetric.compute, h]
  · intro gh hgh
    constructor
    · intro h
      simp [ReviewednessMetric.compute, hgh, h]
    · intro h
      simp [ReviewednessMetric.compute, hgh, h]
  · rw [compute_binary_eq]
    split
    · simp_all
    · simp_all

/-- Witness for claim C2: the round-trip statistics applied through the
general statement give value `3000/4200` and binary `1`. -/
theorem c2_reviewedness_value_binary_witness :
    (ReviewednessMetric.compute (mkReviewCtx 4200 3000 42 30)).value = (3000 : ℚ) / 4200 ∧
    (ReviewednessMetric.compute (mkReviewCtx 4200 3000 42 30)).binary = 1 := by
  constructor
  · exact (((c2_reviewedness_value_binary (mkReviewCtx 4200 3000 42 30)).2.1 _
      rfl).1 (by decide)).trans (by norm_num [mkReviewCtx, statGet])
  · exact ((c2_reviewedness_value_binary (mkReviewCtx 4200 3000 42 30)).2.2.1).mpr
      (by norm_num [ReviewednessMetric.compute, mkReviewCtx, statGet])

/-- Claim C3: whatever partial data the aggregation sequence had assembled
when an unhandled exception occurred, `fetch_comprehensive_metrics_data`
discards it and returns the one hard-coded neutral-default context, which is
structurally complete: it carries every documented field — availability (with
its four link flags), license, repo_meta, code_quality, dataset_quality, ramp
(downloads/likes/recency), size_components (all four hardware profiles),
requirements_passed/total, compatible_licenses, and all four per-source
latency fields — with their neutral default values. -/
theorem c3_aggregator_neutral_fallback :
    (∀ pd : JVal, fetch_comprehensive_metrics_data (Except.error pd) = neutralDefaultCtx) ∧
    structurallyComplete neutralDefaultCtx = true := by
  exact ⟨fun _ => rfl, by rfl⟩

/-- Claim C8: at the serialization boundary a record failing NDJSON
validation — in particular one missing a required name/category/score/latency
field, one with a float score outside `[0, 1]` other than the `-1` sentinel,
or one with a negative latency — is replaced by
`{"name": ..., "error": "Invalid record"}`, and a record passing validation
is emitted unchanged. -/
theorem c8_invalid_record_replaced (r : NDRecord) :
    (validate_ndjson r = true → emitRecord r = r) ∧
    (validate_ndjson r = false →
      emitRecord r = [("name", (rlookup r "name").getD (PyVal.str "unknown")),
                      ("error", PyVal.str "Invalid record")]) ∧
    (∀ f, f ∈ stringFields ++ scoreFields ++ latencyFields →
      rlookup r f = Option.none → validate_ndjson r = false) ∧
    (∀ f, f ∈ scoreFields → ∀ q : ℚ, rlookup r f = some (PyVal.float q) →
      ¬(0 ≤ q ∧ q ≤ 1) → q ≠ -1 → validate_ndjson r = false) ∧
    (∀ f, f ∈ latencyFields → ∀ n : Int, rlookup r f = some (PyVal.int n) →
      n < 0 → validate_ndjson r = false) := by
  refine ⟨?_, ?_, ?_, ?_, ?_⟩
  · intro h
    simp [emitRecord, h]
  · intro h
    simp [emitRecord, h]
  · intro f hf hnone
    cases hval : validate_ndjson r with
    | false => rfl
    | true =>
      exfalso
      simp only [validate_ndjson, Bool.and_eq_true, List.all_eq_true] at hval
      obtain ⟨⟨⟨⟨⟨hA, hB⟩, hC⟩, _hD⟩, _hE⟩, _hF⟩ := hval
      rcases List.mem_append.mp hf with hf1 | hf3
      · rcases List.mem_append.mp hf1 with hfs | hfc
        · have hpres := hC f hfs
          rw [hnone] at hpres
          simp at hpres
        · have hpres := hA f hfc
          rw [hnone] at hpres
          simp at hpres
      · have hpres := hB f hf3
        rw [hnone] at hpres
        simp at hpres
  · intro f hf q hlk hrange hneg
    cases hval : validate_ndjson r with
    | false => rfl
    | true =>
      exfalso
      simp only [validate_ndjson, Bool.and_eq_true, List.all_eq_true] at hval
      obtain ⟨⟨⟨⟨⟨_hA, _hB⟩, _hC⟩, _hD⟩, hE⟩, _hF⟩ := hval
      have hsc := hE f hf
      rw [hlk] at hsc
      simp at hsc
      simp [scoreFieldOk, scoreValOk, isNegOneVal, hneg] at hsc
      exact hrange hsc
  · intro f hf n hlk hneg
    cases hval : validate_ndjson r with
    | false => rfl
    | true =>
      exfalso
      simp only [validate_ndjson, Bool.and_eq_true, List.all_eq_true] at hval
      obtain ⟨⟨⟨⟨⟨_hA, _hB⟩, _hC⟩, _hD⟩, _hE⟩, hF⟩ := hval
      have hlat := hF f hf
      rw [hlk] at hlat
      simp at hlat
      simp [latencyFieldOk] at hlat
      omega

/-- Witness for claim C8: the empty record fails validation and is replaced
by the name/error pair; the fully populated record passes and is emitted
unchanged. -/
theorem c8_invalid_record_replaced_witness :
    validate_ndjson [] = false ∧
    emitRecord [] = [("name", PyVal.str "unknown"), ("error", PyVal.str "Invalid record")] ∧
    validate_ndjson goodRecord = true ∧
    emitRecord goodRecord = goodRecord := by
  refine ⟨rfl, ?_, rfl, ?_⟩
  · exact (c8_invalid_record_replaced []).2.1 rfl
  · exact (c8_invalid_record_replaced goodRecord).1 rfl

/-- Claim C9: `validate_ndjson` accepts a score equal to `-1` whether integer
or float, rejects every other integer-typed score (the integer `1` or `0`
fails while the float `1.0` or `0.0` passes), and accepts a latency field
only when it is `None` or a non-negative integer. -/
theorem c9_validate_type_discipline :
    (∀ (r : NDRecord) (f : String) (n : Int), f ∈ scoreFields →
      rlookup r f = some (PyVal.int n) → n ≠ -1 → validate_ndjson r = false) ∧
    (∀ (r : NDRecord) (f : String) (v : PyVal), f ∈ latencyFields →
      rlookup r f = some v → validate_ndjson r = true →
      v = PyVal.none ∨ ∃ n : Int, 0 ≤ n ∧ v = PyVal.int n) ∧
    validate_ndjson (setField goodRecord "net_score" (PyVal.int (-1))) = true ∧
    validate_ndjson (setField goodRecord "net_score" (PyVal.float (-1))) = true ∧
    validate_ndjson (setField goodRecord "net_score" (PyVal.int 1)) = false ∧
    validate_ndjson (setField goodRecord "net_score" (PyVal.int 0)) = false ∧
    validate_ndjson (setField goodRecord "net_score" (PyVal.float 1)) = true ∧
    validate_ndjson (setField goodRecord "net_score" (PyVal.float 0)) = true ∧
    validate_ndjson (setField goodRecord "net_score_latency" PyVal.none) = true ∧
    validate_ndjson (setField goodRecord "net_score_latency" (PyVal.float 1)) = false := by
  refine ⟨?_, ?_, rfl, rfl, rfl, rfl, rfl, rfl, rfl, rfl⟩
  · intro r f n hf hlk hneg
    cases hval : validate_ndjson r with
    | false => rfl
    | true =>
      exfalso
      simp only [validate_ndjson, Bool.and_eq_true, List.all_eq_true] at hval
      obtain ⟨⟨⟨⟨⟨_hA, _hB⟩, _hC⟩, _hD⟩, hE⟩, _hF⟩ := hval
      have hsc := hE f hf
      rw [hlk] at hsc
      simp at hsc
      simp [scoreFieldOk, scoreValOk, isNegOneVal, hneg] at hsc
  · intro r f v hf hlk hval
    simp only [validate_ndjson, Bool.and_eq_true, List.all_eq_true] at hval
    obtain ⟨⟨⟨⟨⟨_hA, _hB⟩, _hC⟩, _hD⟩, _hE⟩, hF⟩ := hval
    have hlat := hF f hf
    rw [hlk] at hlat
    simp at hlat
    cases v with
    | none => exact Or.inl rfl
    | int n =>
      refine Or.inr ⟨n, ?_, rfl⟩
      simpa [latencyFieldOk] using hlat
    | float q => simp [latencyFieldOk] at hlat
    | str s => simp [latencyFieldOk] at hlat
    | dict d => simp [latencyFieldOk] at hlat

/-- Witness for claim C9: an integer score of `1` in an otherwise valid
record makes validation fail, via the general statement. -/
theorem c9_validate_type_discipline_witness :
    "net_score" ∈ scoreFields ∧
    rlookup (setField goodRecord "net_score" (PyVal.int 1)) "net_score" =
      some (PyVal.int 1) ∧
    validate_ndjson (setField goodRecord "net_score" (PyVal.int 1)) = false := by
  refine ⟨by decide, rfl, ?_⟩
  exact c9_validate_type_discipline.1 (setField goodRecord "net_score" (PyVal.int 1))
    "net_score" 1 (by decide) rfl (by decide)

/-- Claim C10: `get_github_repo_data` is total and shape-stable — an input
URL with no parseable owner/repo pair (or an empty owner or repository name)
yields the empty dictionary, every parseable input yields a record carrying
all eight keys (the result structure), and when every upstream call fails the
record holds the documented defaults with all six `pr_review_stats` counters
equal to zero. -/
theorem c10_repo_data_total_shape :
    (∀ (repoResp : Option RepoJson) (contribResp : Option (List ContribEntry))
       (commitsLastPage : Option Nat) (prResponses : List PageResp)
       (treeMain treeMaster : Option (List TreeEntry)),
      get_github_repo_data Option.none repoResp contribResp commitsLastPage
        prResponses treeMain treeMaster = Option.none) ∧
    (∀ (owner repo : String) (repoResp : Option RepoJson)
       (contribResp : Option (List ContribEntry)) (commitsLastPage : Option Nat)
       (prResponses : List PageResp) (treeMain treeMaster : Option (List TreeEntry)),
      owner = "" ∨ repo = "" →
      get_github_repo_data (some (owner, repo)) repoResp contribResp commitsLastPage
        prResponses treeMain treeMaster = Option.none) ∧
    (∀ (owner repo : String) (repoResp : Option RepoJson)
       (contribResp : Option (List ContribEntry)) (commitsLastPage : Option Nat)
       (prResponses : List PageResp) (treeMain treeMaster : Option (List TreeEntry)),
      owner ≠ "" → repo ≠ "" →
      (get_github_repo_data (some (owner, repo)) repoResp contribResp commitsLastPage
        prResponses treeMain treeMaster).isSome = true) ∧
    (∀ owner repo : String, owner ≠ "" → repo ≠ "" →
      get_github_repo_data (some (owner, repo)) Option.none Option.none Option.none []
        Option.none Option.none =
      some { contributors := Option.none, files := [], license := Option.none
             stars := 0, forks := 0, created_at := Option.none, updated_at := Option.none
             pr_review_stats := FullPRStats.mk 0 0 0 0 0 0 }) := by
  refine ⟨?_, ?_, ?_, ?_⟩
  · intro repoResp contribResp commitsLastPage prResponses treeMain treeMaster
    rfl
  · intro owner repo repoResp contribResp commitsLastPage prResponses treeMain treeMaster h
    simp only [get_github_repo_data]
    rw [if_pos h]
  · intro owner repo repoResp contribResp commitsLastPage prResponses treeMain treeMaster h1 h2
    simp only [get_github_repo_data]
    rw [if_neg (fun hc => hc.elim h1 h2)]
    rfl
  · intro owner repo h1 h2
    simp only [get_github_repo_data]
    rw [if_neg (fun hc => hc.elim h1 h2)]
    rfl

/-- Witness for claim C10: a concrete parseable owner/repo pair with every
upstream call failing produces the fully defaulted record. -/
theorem c10_repo_data_total_shape_witness :
    ("octocat" : String) ≠ "" ∧ ("hello-world" : String) ≠ "" ∧
    get_github_repo_data (some ("octocat", "hello-world")) Option.none Option.none
      Option.none [] Option.none Option.none =
      some { contributors := Option.none, files := [], license := Option.none
             stars := 0, forks := 0, created_at := Option.none, updated_at := Option.none
             pr_review_stats := FullPRStats.mk 0 0 0 0 0 0 } := by
  refine ⟨by decide, by decide, ?_⟩
  exact c10_repo_data_total_shape.2.2.2 "octocat" "hello-world" (by decide) (by decide)
